import Mathlib

/-!
Shallow embedding of the retry/fallback orchestration, image compositing and
state-update operations of the `gemini-detail-page-maker` client application,
together with proofs of the behavioural properties stated in its specification.

Sources embedded:
* the Gemini service module (`generateImage`, `withRetry`, `optimizeImageForAPI`);
* the workspace component (`stitchImages`, `processImageToBlob`,
  `handleBatchAnalyze`, `handleServiceError`);
* the application store (`updateItemOptionText`).

Browser primitives (image decode, canvas rasterisation, JPEG/PNG encoding,
wall-clock timers) are represented symbolically: an image is its decoded
dimensions plus its source bytes, a canvas render is the exact list of drawing
operations issued to it, a timer wait is a recorded event.  Floating-point
arithmetic of the source is modelled by exact rational/integer arithmetic
(`Math.round(a/b)` becomes `jsRound a b`, `Math.floor(a/b)` becomes `a / b`
on naturals).
-/

namespace DetailPageMaker

/-- Prefix test on character lists. -/
def charsPrefixOf : List Char → List Char → Bool
  | [], _ => true
  | _ :: _, [] => false
  | a :: as, b :: bs => a == b && charsPrefixOf as bs

/-- Substring (contiguous-infix) test on character lists. -/
def charsInfixOf (needle : List Char) : List Char → Bool
  | [] => charsPrefixOf needle []
  | b :: bs => charsPrefixOf needle (b :: bs) || charsInfixOf needle bs

/-- The model of JavaScript `hay.includes(needle)`: substring containment. -/
def strIncludes (hay needle : String) : Bool :=
  charsInfixOf needle.toList hay.toList

/-- The model of JavaScript `s.toLowerCase()`: lowercase every character. -/
def strToLower (s : String) : String :=
  ⟨s.data.map Char.toLower⟩

/-- Model of JavaScript `Math.round (num / den)` on nonnegative values:
round-half-up of the exact rational `num / den`. -/
def jsRound (num den : Nat) : Nat :=
  (2 * num + den) / (2 * den)

/-! ## `generateImage` — retry / fallback wrapper (service module, lines 687–784)

The remote call `ai.models.generateContent` plus the extraction of the first
inline-image part from the response is abstracted as a mock
`call : Nat → Except String String` indexed by the number of calls made so
far: `.error e` models the attempt throwing an error with message `e`,
`.ok data` models a successful generation returning the encoded image.
Every observable action of the wrapper — each invocation of the
`onStatusUpdate` progress callback, each awaited delay, each remote call —
is recorded, in program order, in a trace. -/

/-- The ordered model list tried by `generateImage`. -/
def modelsToTry : List String :=
  ["gemini-3-pro-image-preview", "gemini-2.5-flash-image"]

/-- The fixed ascending retry schedule of `generateImage`: 5s, 10s, 20s, 40s, 60s. -/
def retryDelays : List Nat := [5000, 10000, 20000, 40000, 60000]

/-- Content of one `onStatusUpdate` invocation.
`start model` is the attempt-0 message `🎨 모델(...)로 이미지 생성 시작...`;
`countdown delayMs attempt total` is the retry message
`⏳ 구글 서버 대기 중... {delayMs/1000}초 후 재시도 ({attempt}/{total})`. -/
inductive StatusMsg where
  | start (model : String)
  | countdown (delayMs : Nat) (attempt : Nat) (total : Nat)
deriving DecidableEq, Repr

/-- One observable event of a `generateImage` run. -/
inductive GenEvent where
  | status (msg : StatusMsg)
  | wait (ms : Nat)
  | call (index : Nat)
deriving DecidableEq, Repr

/-- Error classes of the `catch` block in `generateImage`, in the order the
source tests them on the lowercased message. -/
inductive GenErrClass where
  | fatal      -- auth / key / permission / safety / blocked: rethrow at once
  | retryable  -- 503 / overloaded / quota / internal / 429: retry same model
  | notFound   -- 404 / not found: break to next model
  | unknown    -- anything else: break to next model
deriving DecidableEq, Repr

/-- The error classification of `generateImage`'s catch block, applied to the
lowercased message exactly as in the source. -/
def classifyGenError (rawMsg : String) : GenErrClass :=
  let msg := strToLower rawMsg
  if strIncludes msg "auth" || strIncludes msg "key" || strIncludes msg "permission"
      || strIncludes msg "safety" || strIncludes msg "blocked" then
    .fatal
  else if strIncludes msg "503" || strIncludes msg "overloaded" || strIncludes msg "quota"
      || strIncludes msg "internal" || strIncludes msg "429" then
    .retryable
  else if strIncludes msg "404" || strIncludes msg "not found" then
    .notFound
  else
    .unknown

/-- Outcome of the inner retry loop of `generateImage` for one model. -/
inductive ModelOutcome where
  | success (img : String)          -- `return` out of both loops
  | fatal (err : String)            -- `throw e` out of both loops
  | moveOn (lastErr : Option String) -- retries exhausted or `break`: next model
deriving DecidableEq, Repr

/-- The inner `for (attempt = 0; attempt <= retryDelays.length; attempt++)`
loop of `generateImage` for one model.  `remaining` counts the attempts left
(initially `retryDelays.length + 1`), `attempt` the current attempt index,
`calls` the number of mock calls issued so far.  Returns the recorded events,
the updated call counter and the outcome. -/
def runModelAttempts (call : Nat → Except String String) (hasCallback : Bool)
    (model : String) :
    Nat → Nat → Nat → Option String → List GenEvent × Nat × ModelOutcome
  | 0, _, calls, lastErr => ([], calls, .moveOn lastErr)
  | remaining + 1, attempt, calls, lastErr =>
    let statusEvents : List GenEvent :=
      if hasCallback then
        if attempt = 0 then [.status (.start model)]
        else [.status (.countdown (retryDelays.getD (attempt - 1) 0) attempt retryDelays.length)]
      else []
    let waitEvents : List GenEvent :=
      if attempt = 0 then [] else [.wait (retryDelays.getD (attempt - 1) 0)]
    let pre := statusEvents ++ waitEvents ++ [.call calls]
    match call calls with
    | .ok img => (pre, calls + 1, .success img)
    | .error e =>
      match classifyGenError e with
      | .fatal => (pre, calls + 1, .fatal e)
      | .retryable =>
        let (evs, calls', out) :=
          runModelAttempts call hasCallback model remaining (attempt + 1) (calls + 1) (some e)
        (pre ++ evs, calls', out)
      | .notFound => (pre, calls + 1, .moveOn (some e))
      | .unknown => (pre, calls + 1, .moveOn (some e))

/-- The outer `for (const modelName of modelsToTry)` loop of `generateImage`. -/
def runModels (call : Nat → Except String String) (hasCallback : Bool) :
    List String → Nat → Option String → List GenEvent × Except String String
  | [], _, lastErr =>
    ([], .error (lastErr.getD "모든 이미지 생성 모델 시도 실패 (구글 서버 혼잡)"))
  | model :: rest, calls, lastErr =>
    match runModelAttempts call hasCallback model (retryDelays.length + 1) 0 calls lastErr with
    | (evs, _, .success img) => (evs, .ok img)
    | (evs, _, .fatal e) => (evs, .error e)
    | (evs, calls', .moveOn lastErr') =>
      let (evs', res) := runModels call hasCallback rest calls' lastErr'
      (evs ++ evs', res)

/-- `generateImage` of the service module: the full retry/fallback run over a
mock remote call, returning the event trace and the final result
(`.ok` = returned image, `.error` = thrown error message). -/
def generateImage (call : Nat → Except String String) (hasCallback : Bool) :
    List GenEvent × Except String String :=
  runModels call hasCallback modelsToTry 0 none

/-- Number of progress-callback invocations recorded in a trace. -/
def countStatus (trace : List GenEvent) : Nat :=
  (trace.filter fun e => match e with | .status _ => true | _ => false).length

/-- Number of awaited delays recorded in a trace. -/
def countWaits (trace : List GenEvent) : Nat :=
  (trace.filter fun e => match e with | .wait _ => true | _ => false).length

/-- Number of remote calls recorded in a trace. -/
def countCalls (trace : List GenEvent) : Nat :=
  (trace.filter fun e => match e with | .call _ => true | _ => false).length

/-! ### Claims C1 and C2 -/

/-- Mock remote call for the C1 scenario: a quota error on the first two
attempts, success on the third. -/
def cexCallQuota : Nat → Except String String := fun n =>
  if n < 2 then .error "429 quota exceeded" else .ok "img-data"

/-- Mock remote call for the C2 scenario: an authorization error on the
first attempt. -/
def cexCallAuth : Nat → Except String String := fun _ =>
  .error "auth error: API key invalid"

/-- A message whose lowercase form contains `auth` is classified fatal by
`generateImage`'s catch block. -/
theorem classifyGenError_fatal_of_auth (e : String)
    (h : strIncludes (strToLower e) "auth" = true) :
    classifyGenError e = .fatal := by
  simp [classifyGenError, h]

/-- C1 (counterexample): with a mock call that raises a quota error on the
first 2 attempts and succeeds on the 3rd, `generateImage` does return the
success result, but the progress callback is invoked 3 times — once with the
initial start message and twice with countdown messages — not exactly 2
times as claimed. -/
theorem generateImage_quota_retry_cex :
    (generateImage cexCallQuota true).2 = Except.ok "img-data" ∧
    ¬ countStatus (generateImage cexCallQuota true).1 = 2 := by
  constructor
  · rfl
  · intro h
    have h3 : countStatus (generateImage cexCallQuota true).1 = 3 := rfl
    omega

/-- C1 (amended): for any mock remote call that raises a quota
(resource-exhaustion, retryable) error on the first 2 attempts and succeeds
on the 3rd, `generateImage` returns the success result, and its observable
trace is exactly: the start-message callback invocation, the first call, a
countdown-message callback invocation announcing a 5s delay, the 5s wait,
the second call, a countdown-message callback invocation announcing a 10s
delay, the 10s wait, and the succeeding third call.  In particular the
progress callback is invoked 3 times — the 2 countdown invocations of the
claim, with the increasing schedule entries 5s then 10s, each emitted before
the corresponding wait — plus the initial start message. -/
theorem generateImage_quota_retry (call : Nat → Except String String)
    (e0 e1 img : String)
    (h0 : call 0 = .error e0) (h1 : call 1 = .error e1) (h2 : call 2 = .ok img)
    (h0q : strIncludes (strToLower e0) "quota" = true)
    (h1q : strIncludes (strToLower e1) "quota" = true)
    (h0c : classifyGenError e0 = .retryable)
    (h1c : classifyGenError e1 = .retryable) :
    generateImage call true =
      ([.status (.start "gemini-3-pro-image-preview"), .call 0,
        .status (.countdown 5000 1 5), .wait 5000, .call 1,
        .status (.countdown 10000 2 5), .wait 10000, .call 2],
       Except.ok img) := by
  simp [generateImage, runModels, runModelAttempts, modelsToTry, retryDelays,
    h0, h1, h2, h0c, h1c]

/-- Witness for `generateImage_quota_retry` at the concrete mock call. -/
theorem generateImage_quota_retry_witness :
    generateImage cexCallQuota true =
      ([.status (.start "gemini-3-pro-image-preview"), .call 0,
        .status (.countdown 5000 1 5), .wait 5000, .call 1,
        .status (.countdown 10000 2 5), .wait 10000, .call 2],
       Except.ok "img-data") :=
  generateImage_quota_retry cexCallQuota "429 quota exceeded" "429 quota exceeded"
    "img-data" rfl rfl rfl (by decide) (by decide) (by decide) (by decide)

/-- C2 (counterexample): with a mock call that raises an authorization error
on the first attempt, `generateImage` does raise immediately with zero
delays, but the progress callback is invoked once (with the initial start
message), not zero times as claimed. -/
theorem generateImage_auth_cex :
    (generateImage cexCallAuth true).2 = Except.error "auth error: API key invalid" ∧
    countWaits (generateImage cexCallAuth true).1 = 0 ∧
    ¬ countStatus (generateImage cexCallAuth true).1 = 0 := by
  refine ⟨rfl, rfl, ?_⟩
  intro h
  have h1 : countStatus (generateImage cexCallAuth true).1 = 1 := rfl
  omega

/-- C2 (amended): for any mock remote call that raises an authorization
error (message containing `auth`) on the first attempt, `generateImage`
raises that error immediately: its observable trace is exactly the
start-message callback invocation followed by the single remote call — so
there is no delay, no switch to the second model, no further attempt, and
zero countdown-message callback invocations; the callback is invoked exactly
once, with the initial start message. -/
theorem generateImage_auth_immediate (call : Nat → Except String String)
    (e : String) (h0 : call 0 = .error e)
    (ha : strIncludes (strToLower e) "auth" = true) :
    generateImage call true =
      ([.status (.start "gemini-3-pro-image-preview"), .call 0],
       Except.error e) := by
  have hc := classifyGenError_fatal_of_auth e ha
  simp [generateImage, runModels, runModelAttempts, modelsToTry, retryDelays, h0, hc]

/-- Witness for `generateImage_auth_immediate` at the concrete mock call. -/
theorem generateImage_auth_immediate_witness :
    generateImage cexCallAuth true =
      ([.status (.start "gemini-3-pro-image-preview"), .call 0],
       Except.error "auth error: API key invalid") :=
  generateImage_auth_immediate cexCallAuth "auth error: API key invalid" rfl (by decide)

/-! ## `withRetry` — fixed-attempt retry wrapper for text calls
(service module, lines 617–636)

The operation is a mock `op : Nat → Except String α` indexed by the attempt
number `i` of the `for (let i = 0; i < retries; i++)` loop.  A run returns
the number of invocations of `op`, the list of awaited delays in order, and
the result; `.error none` models rethrowing the initial undefined
`lastError` when `retries = 0`. -/

/-- The non-retryable-marker test of `withRetry`'s catch block (applied to
the raw, not lowercased, message). -/
def isNonRetryableText (msg : String) : Bool :=
  strIncludes msg "AUTH_ERROR" || strIncludes msg "키 만료"
    || strIncludes msg "권한" || strIncludes msg "SAFETY"

/-- The loop of `withRetry`: `remaining` attempts left, `i` the current loop
index. -/
def withRetryAux (op : Nat → Except String α) (delayMs : Nat) :
    Nat → Nat → Option String → Nat × List Nat × Except (Option String) α
  | 0, _, lastErr => (0, [], .error lastErr)
  | remaining + 1, i, _ =>
    match op i with
    | .ok v => (1, [], .ok v)
    | .error e =>
      if isNonRetryableText e then (1, [], .error (some e))
      else
        let (c, ws, res) := withRetryAux op delayMs remaining (i + 1) (some e)
        (c + 1, delayMs * (i + 1) :: ws, res)

/-- Default `retries` parameter of `withRetry`. -/
def withRetryDefaultRetries : Nat := 3

/-- Default `delayMs` parameter of `withRetry`. -/
def withRetryDefaultDelayMs : Nat := 2000

/-- `withRetry` of the service module, run over a mock operation. -/
def withRetry (op : Nat → Except String α) (retries delayMs : Nat) :
    Nat × List Nat × Except (Option String) α :=
  withRetryAux op delayMs retries 0 none

/-- Unfolding lemma for the all-attempts-fail run of `withRetryAux`. -/
theorem withRetryAux_all_fail {α : Type} (op : Nat → Except String α)
    (errs : Nat → String) (delayMs : Nat) :
    ∀ remaining i lastErr,
      (∀ k, k < remaining → op (i + k) = .error (errs (i + k))) →
      (∀ k, k < remaining → isNonRetryableText (errs (i + k)) = false) →
      withRetryAux op delayMs remaining i lastErr =
        (remaining, (List.range remaining).map (fun k => delayMs * (i + k + 1)),
         .error (if remaining = 0 then lastErr else some (errs (i + remaining - 1)))) := by
  intro remaining
  induction remaining with
  | zero => intro i lastErr _ _; simp [withRetryAux]
  | succ n ih =>
    intro i lastErr hop hmark
    have h0 : op i = .error (errs i) := by simpa using hop 0 (Nat.succ_pos n)
    have hm0 : isNonRetryableText (errs i) = false := by
      simpa using hmark 0 (Nat.succ_pos n)
    have hrec := ih (i + 1) (some (errs i))
      (fun k hk => by
        have := hop (k + 1) (Nat.succ_lt_succ hk)
        simpa [Nat.add_comm, Nat.add_assoc, Nat.add_left_comm] using this)
      (fun k hk => by
        have := hmark (k + 1) (Nat.succ_lt_succ hk)
        simpa [Nat.add_comm, Nat.add_assoc, Nat.add_left_comm] using this)
    have hmap : delayMs * (i + 1) ::
        (List.range n).map (fun k => delayMs * (i + 1 + k + 1)) =
        (List.range (n + 1)).map (fun k => delayMs * (i + k + 1)) := by
      rw [List.range_succ_eq_map, List.map_cons, List.map_map]
      refine congrArg₂ _ (by ring) ?_
      apply List.map_congr_left
      intro k _
      simp only [Function.comp_apply, Nat.succ_eq_add_one]
      ring
    have hidx : i + 1 + n - 1 = i + (n + 1) - 1 := by omega
    rcases Nat.eq_zero_or_pos n with hn | hn
    · subst hn
      simp only [withRetryAux, h0, hm0, Bool.false_eq_true, if_false, hrec,
        Prod.mk.injEq]
      simpa using hmap
    · have hne : ¬ n = 0 := by omega
      simp only [withRetryAux, h0, hm0, Bool.false_eq_true, if_false, hrec,
        hne, Prod.mk.injEq]
      rw [hidx] at *
      simp [hmap]

/-- C9: if every attempt of `withRetry` fails with an error whose message
contains none of the non-retryable markers (`AUTH_ERROR`, `키 만료`,
`권한`, `SAFETY`), the wrapper invokes the operation exactly `retries`
times, waits `delayMs * (i+1)` after the `i`-th failure — including a final
wait after the last failed attempt — and then rethrows the last observed
error unchanged. -/
theorem withRetry_all_fail {α : Type} (op : Nat → Except String α)
    (errs : Nat → String) (retries delayMs : Nat)
    (hpos : 0 < retries)
    (hop : ∀ i, i < retries → op i = .error (errs i))
    (hmark : ∀ i, i < retries → isNonRetryableText (errs i) = false) :
    withRetry op retries delayMs =
      (retries, (List.range retries).map (fun i => delayMs * (i + 1)),
       .error (some (errs (retries - 1)))) := by
  have h := withRetryAux_all_fail op errs delayMs retries 0 none
    (fun k hk => by simpa using hop k hk)
    (fun k hk => by simpa using hmark k hk)
  have hne : ¬ retries = 0 := by omega
  simpa [withRetry, hne] using h

/-- Witness for `withRetry_all_fail`: the default parameters (3 attempts,
2000ms base delay) and an operation that always fails with a retryable
server error; the run makes 3 calls, waits 2000, 4000 and 6000 ms, and
rethrows the last error. -/
theorem withRetry_all_fail_witness :
    withRetry (fun _ => (Except.error "500 server overloaded" : Except String String))
        withRetryDefaultRetries withRetryDefaultDelayMs =
      (3, [2000, 4000, 6000], .error (some "500 server overloaded")) := by
  have h := withRetry_all_fail
    (fun _ => (Except.error "500 server overloaded" : Except String String))
    (fun _ => "500 server overloaded") withRetryDefaultRetries withRetryDefaultDelayMs
    (by decide) (fun _ _ => rfl)
    (fun _ _ => (by decide : isNonRetryableText "500 server overloaded" = false))
  simpa [withRetryDefaultRetries, withRetryDefaultDelayMs] using h

/-! ## `optimizeImageForAPI` — image encoder / normalizer
(service module, lines 575–614)

A decoded input image is its pixel dimensions plus its source bytes.  The
browser primitives `ctx.drawImage` (scale the decoded image to the canvas
dimensions) and `canvas.toDataURL('image/jpeg', 0.8)` (encode the canvas at
the fixed quality) are represented symbolically: the output of the
normalizer is the canvas description — target dimensions, the source image
drawn onto it, and the fixed encoding quality — which the browser encodes
deterministically. -/

/-- A decoded image: dimensions reported by the browser decoder plus the
source bytes it was decoded from. -/
structure DecodedImage where
  width : Nat
  height : Nat
  bytes : List Nat
deriving DecidableEq, Repr

/-- A canvas rendered by `optimizeImageForAPI`, ready for JPEG encoding:
the source image scaled onto a `width × height` canvas, encoded at JPEG
quality 0.8 (`80` in percent). -/
structure OptimizedCanvas where
  width : Nat
  height : Nat
  source : DecodedImage
  jpegQualityPct : Nat
deriving DecidableEq, Repr

/-- The dimension computation of `optimizeImageForAPI`: cap the longest
edge at `maxDimension`, preserving aspect ratio with `Math.round`. -/
def optimizeDims (width height maxDimension : Nat) : Nat × Nat :=
  if width > maxDimension ∨ height > maxDimension then
    if width > height then
      (maxDimension, jsRound (height * maxDimension) width)
    else
      (jsRound (width * maxDimension) height, maxDimension)
  else
    (width, height)

/-- `optimizeImageForAPI` on a successfully decoded image: draw the source
onto a canvas with the capped dimensions and encode it as JPEG at quality
0.8.  (On decode failure the source falls back to the original string;
claim C5 is about valid inputs, which decode.) -/
def optimizeImageForAPI (img : DecodedImage) (maxDimension : Nat) :
    OptimizedCanvas :=
  let dims := optimizeDims img.width img.height maxDimension
  { width := dims.1, height := dims.2, source := img, jpegQualityPct := 80 }

/-- The configured maximum dimension of `optimizeImageForAPI` (its default
`maxDimension` parameter). -/
def optimizeMaxDimension : Nat := 1024

/-- `Math.round (h * maxD / w) ≤ maxD` whenever `h ≤ w`. -/
theorem jsRound_scale_le (h w maxD : Nat) (hw : h ≤ w) (hpos : 0 < w) :
    jsRound (h * maxD) w ≤ maxD := by
  unfold jsRound
  have hnum : 2 * (h * maxD) + w ≤ 2 * (w * maxD) + w := by
    have : h * maxD ≤ w * maxD := Nat.mul_le_mul_right maxD hw
    omega
  calc (2 * (h * maxD) + w) / (2 * w) ≤ (2 * (w * maxD) + w) / (2 * w) :=
        Nat.div_le_div_right hnum
    _ ≤ maxD := by
        rw [Nat.div_le_iff_le_mul_add_pred (by omega)]
        ring_nf
        omega

/-- Both components of `optimizeDims` are bounded by `maxDimension` when the
input dimensions are positive. -/
theorem optimizeDims_le (w h maxD : Nat) (hw : 0 < w) (hh : 0 < h) :
    (optimizeDims w h maxD).1 ≤ maxD ∧ (optimizeDims w h maxD).2 ≤ maxD := by
  unfold optimizeDims
  by_cases hc : w > maxD ∨ h > maxD
  · rw [if_pos hc]
    by_cases hwh : w > h
    · rw [if_pos hwh]
      exact ⟨Nat.le_refl _, jsRound_scale_le h w maxD (Nat.le_of_lt hwh) hw⟩
    · rw [if_neg hwh]
      exact ⟨jsRound_scale_le w h maxD (by omega) hh, Nat.le_refl _⟩
  · rw [if_neg hc]
    push_neg at hc
    exact hc

/-- C5: for every decoded image with positive dimensions (a valid non-empty
input), the encoder/normalizer produces an output canvas whose width and
height are both at most the configured maximum dimension (1024); and it is
deterministic — byte-identical input of identical dimensions yields an
identical output canvas (hence identical encoded bytes, the encoder being a
fixed function of the canvas). -/
theorem optimizeImageForAPI_bounded_and_deterministic (img : DecodedImage)
    (hw : 0 < img.width) (hh : 0 < img.height) :
    (optimizeImageForAPI img optimizeMaxDimension).width ≤ optimizeMaxDimension ∧
    (optimizeImageForAPI img optimizeMaxDimension).height ≤ optimizeMaxDimension ∧
    ∀ img' : DecodedImage, img'.width = img.width → img'.height = img.height →
      img'.bytes = img.bytes →
      optimizeImageForAPI img' optimizeMaxDimension =
        optimizeImageForAPI img optimizeMaxDimension := by
  have hb := optimizeDims_le img.width img.height optimizeMaxDimension hw hh
  refine ⟨hb.1, hb.2, ?_⟩
  intro img' hW hH hB
  have : img' = img := by
    cases img; cases img'
    simp_all
  rw [this]

/-- Witness for `optimizeImageForAPI_bounded_and_deterministic` at a
concrete 2048×1536 image. -/
theorem optimizeImageForAPI_bounded_witness :
    (optimizeImageForAPI ⟨2048, 1536, [1, 2, 3]⟩ optimizeMaxDimension).width ≤
        optimizeMaxDimension ∧
    (optimizeImageForAPI ⟨2048, 1536, [1, 2, 3]⟩ optimizeMaxDimension).height ≤
        optimizeMaxDimension := by
  have h := optimizeImageForAPI_bounded_and_deterministic ⟨2048, 1536, [1, 2, 3]⟩
    (by decide) (by decide)
  exact ⟨h.1, h.2.1⟩

/-! ## `stitchImages` — multi-image stitcher (Workspace component, lines 79–163)

An input is its source string together with the outcome of the browser's
image load (`loaded w h` on `onload` with the decoded dimensions, `failed`
on `onerror`).  The 15-second `Promise.race` against the load of all images
is modelled by a flag `timedOut` saying whether the timeout promise won the
race.  The result is either the empty string (`.empty`) or the exported
canvas: its dimensions plus the drawn height of each stitched image in
order. -/

/-- Outcome of loading one reference image in the browser. -/
inductive LoadResult where
  | failed
  | loaded (width height : Nat)
deriving DecidableEq, Repr

/-- One input to `stitchImages`: the source string and its load outcome. -/
structure RefInput where
  src : String
  load : LoadResult
deriving DecidableEq, Repr

/-- Result of `stitchImages`: the empty string or the exported canvas
(width, height, and the drawn height of each image in order). -/
inductive StitchResult where
  | empty
  | canvas (width height : Nat) (drawnHeights : List Nat)
deriving DecidableEq, Repr

/-- The fixed target width of the stitcher (`TARGET_WIDTH = 1000`). -/
def stitchTargetWidth : Nat := 1000

/-- The hard canvas-height cap of the stitcher (`MAX_HEIGHT = 20000`). -/
def stitchMaxHeight : Nat := 20000

/-- Step 1 of `stitchImages`: filter out potentially corrupt source strings
(`src && src.length > 100 && !src.includes('data:,')`). -/
def stitchValidSrcs (inputs : List RefInput) : List RefInput :=
  inputs.filter fun i => decide (100 < i.src.length) && !(strIncludes i.src "data:,")

/-- Step 2 of `stitchImages`: dimensions of the images that loaded
successfully, in order (failures resolve `null` and are dropped). -/
def stitchLoadedDims (inputs : List RefInput) : List (Nat × Nat) :=
  (stitchValidSrcs inputs).filterMap fun i =>
    match i.load with
    | .loaded w h => some (w, h)
    | .failed => none

/-- `Math.floor(img.height * (TARGET_WIDTH / img.width))`: the height of one
image scaled to the target width preserving aspect ratio. -/
def scaledHeight (dims : Nat × Nat) : Nat :=
  dims.2 * stitchTargetWidth / dims.1

/-- `stitchImages` of the Workspace component. -/
def stitchImages (inputs : List RefInput) (timedOut : Bool) : StitchResult :=
  if inputs.length = 0 then .empty
  else if (stitchValidSrcs inputs).length = 0 then .empty
  else if timedOut then .empty
  else
    let dims := stitchLoadedDims inputs
    if dims.length = 0 then .empty
    else
      let heights := dims.map scaledHeight
      let totalHeight0 := heights.sum
      let finalScale : ℚ :=
        if totalHeight0 > stitchMaxHeight then
          (stitchMaxHeight : ℚ) / (totalHeight0 : ℚ)
        else 1
      let totalHeight :=
        if totalHeight0 > stitchMaxHeight then stitchMaxHeight else totalHeight0
      .canvas stitchTargetWidth totalHeight
        (heights.map fun h => ((h : ℚ) * finalScale).floor.toNat)

/-! ### Claims C6 and C7 -/

/-- Whether a stitch result is a rendered canvas (a non-empty data URL). -/
def StitchResult.isCanvas : StitchResult → Bool
  | .empty => false
  | .canvas _ _ _ => true

/-- Width of a stitch result (0 for the empty result). -/
def StitchResult.widthOf : StitchResult → Nat
  | .empty => 0
  | .canvas w _ _ => w

/-- Height of a stitch result (0 for the empty result). -/
def StitchResult.heightOf : StitchResult → Nat
  | .empty => 0
  | .canvas _ h _ => h

/-- C6: for every input list whose loaded images have dimensions
`(w₁,h₁)..(wₙ,hₙ)` (at least one image loads), stitching at the fixed
target width 1000 yields a canvas of height exactly the total of the
per-image floor-scaled heights `⌊hᵢ·1000/wᵢ⌋`, capped at the configured
maximum 20000 — and whenever the cap applies the output height equals the
cap exactly. -/
theorem stitchImages_height (inputs : List RefInput)
    (hne : stitchLoadedDims inputs ≠ []) :
    (stitchImages inputs false).isCanvas = true ∧
    (stitchImages inputs false).widthOf = stitchTargetWidth ∧
    (stitchImages inputs false).heightOf =
      min ((stitchLoadedDims inputs).map scaledHeight).sum stitchMaxHeight ∧
    (((stitchLoadedDims inputs).map scaledHeight).sum > stitchMaxHeight →
      (stitchImages inputs false).heightOf = stitchMaxHeight) := by
  have hvalid : stitchValidSrcs inputs ≠ [] := by
    intro h
    apply hne
    simp [stitchLoadedDims, h]
  have hinputs : inputs ≠ [] := by
    intro h
    apply hvalid
    simp [stitchValidSrcs, h]
  unfold stitchImages
  rw [if_neg (by simpa [List.length_eq_zero] using hinputs),
    if_neg (by simpa [List.length_eq_zero] using hvalid)]
  simp only [if_false, Bool.false_eq_true]
  rw [if_neg (by simpa [List.length_eq_zero] using hne)]
  by_cases hcap : ((stitchLoadedDims inputs).map scaledHeight).sum > stitchMaxHeight
  · rw [if_pos hcap]
    refine ⟨rfl, rfl, ?_, fun _ => rfl⟩
    simp only [StitchResult.heightOf]
    omega
  · rw [if_neg hcap]
    refine ⟨rfl, rfl, ?_, fun h => absurd h hcap⟩
    simp only [StitchResult.heightOf]
    omega

/-- Witness for `stitchImages_height`: two 500×12000 images scale to
heights totalling 48000, which exceeds the cap, so the canvas height is
exactly 20000. -/
theorem stitchImages_height_witness :
    stitchLoadedDims
        [⟨String.mk (List.replicate 101 'a'), .loaded 500 12000⟩,
         ⟨String.mk (List.replicate 101 'b'), .loaded 500 12000⟩] ≠ [] ∧
    (stitchImages
        [⟨String.mk (List.replicate 101 'a'), .loaded 500 12000⟩,
         ⟨String.mk (List.replicate 101 'b'), .loaded 500 12000⟩]
        false).heightOf = 20000 := by
  refine ⟨by decide, ?_⟩
  have h := (stitchImages_height
    [⟨String.mk (List.replicate 101 'a'), .loaded 500 12000⟩,
     ⟨String.mk (List.replicate 101 'b'), .loaded 500 12000⟩] (by decide)).2.2.1
  rw [h]
  decide

/-- C7: the stitcher returns the empty result (and in particular does not
throw) for an empty input list, for any input list in which every image
fails to load, and for any input list when the timeout elapses first. -/
theorem stitchImages_degenerate :
    (∀ timedOut, stitchImages [] timedOut = .empty) ∧
    (∀ inputs timedOut, (∀ i ∈ inputs, i.load = .failed) →
      stitchImages inputs timedOut = .empty) ∧
    (∀ inputs, stitchImages inputs true = .empty) := by
  refine ⟨fun timedOut => by simp [stitchImages], ?_, ?_⟩
  · intro inputs timedOut hfail
    unfold stitchImages
    by_cases h0 : inputs.length = 0
    · rw [if_pos h0]
    · rw [if_neg h0]
      by_cases h1 : (stitchValidSrcs inputs).length = 0
      · rw [if_pos h1]
      · rw [if_neg h1]
        by_cases h2 : timedOut
        · simp [h2]
        · have h3 : stitchLoadedDims inputs = [] := by
            unfold stitchLoadedDims
            apply List.filterMap_eq_nil_iff.mpr
            intro i hi
            have : i ∈ inputs := List.mem_of_mem_filter hi
            rw [hfail i this]
          simp [h2, h3]
  · intro inputs
    unfold stitchImages
    by_cases h0 : inputs.length = 0
    · rw [if_pos h0]
    · rw [if_neg h0]
      by_cases h1 : (stitchValidSrcs inputs).length = 0
      · rw [if_pos h1]
      · rw [if_neg h1, if_pos rfl]

/-- Witness for `stitchImages_degenerate`: a list whose single image fails
to load stitches to the empty result. -/
theorem stitchImages_degenerate_witness :
    stitchImages [⟨String.mk (List.replicate 101 'a'), .failed⟩] false =
      .empty :=
  stitchImages_degenerate.2.1 [⟨String.mk (List.replicate 101 'a'), .failed⟩]
    false (by decide)

/-! ## `processImageToBlob` — watermark / export renderer
(Workspace component, lines 481–531)

The exported canvas is modelled as its dimensions, the source image drawn
(with high-quality smoothing) to fill it, the exact sequence of
`ctx.fillText(marketName, x + shift, y)` watermark positions issued inside
the rotated context, and the fixed output format (`image/png` at quality
1.0).  The floating-point loop coordinates are modelled as exact rationals;
`qLoop` carries a fuel that strictly exceeds the iteration count of the
JavaScript `for` loop (which advances by `step = targetWidth * 0.25` from
`-bound` while below `2 * bound`), so for positive `targetWidth` the
generated coordinate list is exactly the loop's sequence. -/

/-- `for (v = start; v < stop; v += step)`, fuelled. -/
def qLoop (stop step : ℚ) : Nat → ℚ → List ℚ
  | 0, _ => []
  | fuel + 1, v => if v < stop then v :: qLoop stop step fuel (v + step) else []

/-- JavaScript `a % 2` on a possibly negative integer (truncated
remainder). -/
def jsMod2 (a : ℤ) : ℤ := Int.tmod a 2

/-- The watermark positions drawn by the tiling loops of
`processImageToBlob`: for each `x` and `y` of the two loops, a
`fillText` at `(x + shift, y)` where
`shift = (Math.floor(y / step) % 2) * (step / 2)`. -/
def watermarkOps (targetWidth targetHeight : Nat) : List (ℚ × ℚ) :=
  let tw : ℚ := targetWidth
  let th : ℚ := targetHeight
  let step : ℚ := tw * (1 / 4)
  let xs := qLoop (tw * 2) step 13 (-tw)
  let ys := qLoop (th * 2) step (12 * targetHeight + 13) (-th)
  xs.flatMap fun x =>
    ys.map fun y =>
      let shift : ℚ := (jsMod2 ⌊y / step⌋ : ℚ) * (step / 2)
      (x + shift, y)

/-- The canvas state exported by `processImageToBlob`: resize of the source
to the target dimensions plus the watermark `fillText` positions (empty
when the watermark pass is skipped), encoded as `image/png` at maximum
quality. -/
structure ExportCanvas where
  width : Nat
  height : Nat
  source : DecodedImage
  watermark : List (ℚ × ℚ)
  mimeType : String
  qualityPct : Nat
deriving DecidableEq, Repr

/-- The model of JavaScript `s.trim()`: strip leading and trailing
whitespace. -/
def strTrim (s : String) : String :=
  ⟨((s.data.dropWhile Char.isWhitespace).reverse.dropWhile
      Char.isWhitespace).reverse⟩

/-- `processImageToBlob` of the Workspace component: resize the loaded
image to `targetWidth` (height from `Math.round(targetWidth *
aspectRatio)`), then overlay the tiled watermark iff `marketName` is truthy
and its trim is truthy (`if (marketName && marketName.trim())`). -/
def processImageToBlob (img : DecodedImage) (targetWidth : Nat)
    (marketName : String) : ExportCanvas :=
  let targetHeight := jsRound (targetWidth * img.height) img.width
  { width := targetWidth
    height := targetHeight
    source := img
    watermark :=
      if marketName ≠ "" ∧ strTrim marketName ≠ "" then
        watermarkOps targetWidth targetHeight
      else []
    mimeType := "image/png"
    qualityPct := 100 }

/-- The renderer with the watermark pass disabled: `processImageToBlob`
with the watermark block removed. -/
def processImageToBlobNoWatermark (img : DecodedImage) (targetWidth : Nat) :
    ExportCanvas :=
  let targetHeight := jsRound (targetWidth * img.height) img.width
  { width := targetWidth
    height := targetHeight
    source := img
    watermark := []
    mimeType := "image/png"
    qualityPct := 100 }

/-- C8: for every input image and target width, invoking the
watermark/export renderer with an empty or whitespace-only label produces
output identical to the same invocation with watermarking disabled — the
watermark pass is skipped entirely when no label is supplied. -/
theorem processImageToBlob_blank_label (img : DecodedImage)
    (targetWidth : Nat) (marketName : String)
    (hblank : strTrim marketName = "") :
    processImageToBlob img targetWidth marketName =
      processImageToBlobNoWatermark img targetWidth := by
  unfold processImageToBlob processImageToBlobNoWatermark
  have hcond : ¬ (marketName ≠ "" ∧ strTrim marketName ≠ "") := by
    intro h
    exact h.2 hblank
  simp only [if_neg hcond]

/-- Witness for `processImageToBlob_blank_label`: a whitespace-only label
on a concrete 4×3 image at target width 860. -/
theorem processImageToBlob_blank_label_witness :
    strTrim " " = "" ∧
    processImageToBlob ⟨4, 3, [7, 7, 7]⟩ 860 " " =
      processImageToBlobNoWatermark ⟨4, 3, [7, 7, 7]⟩ 860 :=
  ⟨by decide, processImageToBlob_blank_label ⟨4, 3, [7, 7, 7]⟩ 860 " " (by decide)⟩

/-! ## Data model (types.ts) and store operations (application store) -/

/-- `TextProperties` of types.ts. -/
structure TextProperties where
  font_size : String
  text_color : String
  background_color : String
  opacity : String
  emphasis : String
deriving DecidableEq, Repr

/-- `TextReplacement` of types.ts (bounding box in normalized 0–1000
coordinates `[ymin, xmin, ymax, xmax]`). -/
structure TextReplacement where
  box_id : String
  cell_id : String
  original : String
  replacement : String
  bounding_box : Nat × Nat × Nat × Nat
  properties : TextProperties
deriving DecidableEq, Repr

/-- `CopywritingOption` of types.ts. -/
structure CopywritingOption where
  index : Nat
  tone : String
  text : String
  replacements : List TextReplacement
deriving DecidableEq, Repr

/-- The `WorkItem` lifecycle status of types.ts. -/
inductive ItemStatus where
  | idle | analyzing | selecting | processing | complete | error
deriving DecidableEq, Repr

/-- `WorkItem` of types.ts (the fields touched by the embedded
operations). -/
structure WorkItem where
  id : String
  originalImage : String
  generatedImage : Option String
  status : ItemStatus
  statusMessage : Option String
  error : Option String
  copywritingOptions : List CopywritingOption
  selectedOption : Option CopywritingOption
deriving DecidableEq, Repr

/-- Store `updateItem`: merge a partial update (modelled as a field
transformer) into the matching item. -/
def updateItem (id : String) (upd : WorkItem → WorkItem)
    (items : List WorkItem) : List WorkItem :=
  items.map fun item => if item.id = id then upd item else item

/-- Store `updateMultipleItems`: merge a partial update into every item
whose id is in `ids`. -/
def updateMultipleItems (ids : List String) (upd : WorkItem → WorkItem)
    (items : List WorkItem) : List WorkItem :=
  items.map fun item => if item.id ∈ ids then upd item else item

/-- Store `setItemOptions`. -/
def setItemOptions (id : String) (options : List CopywritingOption)
    (items : List WorkItem) : List WorkItem :=
  items.map fun item =>
    if item.id = id then { item with copywritingOptions := options } else item

/-- The per-item body of the store's `updateItemOptionText` map. -/
def updateItemOptionTextItem (id : String) (index : Nat) (newText : String)
    (item : WorkItem) : WorkItem :=
  if item.id ≠ id then item
  else
    let newOptions :=
      match item.copywritingOptions.get? index with
      | some opt => item.copywritingOptions.set index { opt with text := newText }
      | none => item.copywritingOptions
    let newSelected :=
      match item.selectedOption, newOptions.get? index with
      | some sel, some edited =>
        if sel.index = edited.index then some edited else some sel
      | _, _ => item.selectedOption
    { item with copywritingOptions := newOptions, selectedOption := newSelected }

/-- Store `updateItemOptionText`: replace the text of the option at
position `index` of the matching item, updating `selectedOption` when its
`index` field matches the edited option's. -/
def updateItemOptionText (id : String) (index : Nat) (newText : String)
    (items : List WorkItem) : List WorkItem :=
  items.map (updateItemOptionTextItem id index newText)

/-! ### Claim C10 -/

/-- Per-item behaviour of `updateItemOptionText` (helper for the claim-C10
theorem): non-matching items are returned unchanged; for the matching
item, the indexed option's text is replaced and `selectedOption` follows
iff its `index` field equals the edited option's. -/
theorem updateItemOptionTextItem_spec (id : String) (idx : Nat)
    (txt : String) (item : WorkItem) :
    (item.id ≠ id → updateItemOptionTextItem id idx txt item = item) ∧
    (item.id = id →
      ∀ opt, item.copywritingOptions.get? idx = some opt →
        let item' := updateItemOptionTextItem id idx txt item
        item'.copywritingOptions =
          item.copywritingOptions.set idx { opt with text := txt } ∧
        (∀ sel, item.selectedOption = some sel →
          (sel.index = opt.index →
            item'.selectedOption = some { opt with text := txt }) ∧
          (sel.index ≠ opt.index →
            item'.selectedOption = item.selectedOption)) ∧
        (item.selectedOption = none → item'.selectedOption = none) ∧
        item'.id = item.id ∧ item'.originalImage = item.originalImage ∧
        item'.generatedImage = item.generatedImage ∧
        item'.status = item.status ∧ item'.error = item.error) := by
  constructor
  · intro hne
    unfold updateItemOptionTextItem
    rw [if_pos hne]
  · intro heq opt hopt
    have hlt : idx < item.copywritingOptions.length := by
      rcases List.get?_eq_some.mp hopt with ⟨h, _⟩
      exact h
    have hset : (item.copywritingOptions.set idx
        { opt with text := txt }).get? idx = some { opt with text := txt } :=
      List.get?_set_eq_of_lt _ hlt
    unfold updateItemOptionTextItem
    rw [if_neg (by simp [heq])]
    simp only [hopt, hset]
    cases hsel : item.selectedOption with
    | none => simp
    | some sel =>
      by_cases hix : sel.index = opt.index
      · simp [hix]
      · simp [hix]

/-- C10: for every state, item id, option index and new text,
`updateItemOptionText` keeps the item list's length; every item with a
different id is left entirely unchanged; for the matching item the indexed
option's text is replaced by the new text (other options and fields
untouched), and `selectedOption` is replaced by the updated option exactly
when its `index` field equals the edited option's — so its text then equals
the new text — and is unchanged otherwise. -/
theorem updateItemOptionText_spec (items : List WorkItem) (id : String)
    (idx : Nat) (txt : String) :
    (updateItemOptionText id idx txt items).length = items.length ∧
    ∀ k item, items.get? k = some item →
      ∃ item', (updateItemOptionText id idx txt items).get? k = some item' ∧
        (item.id ≠ id → item' = item) ∧
        (item.id = id →
          ∀ opt, item.copywritingOptions.get? idx = some opt →
            item'.copywritingOptions =
              item.copywritingOptions.set idx { opt with text := txt } ∧
            (∀ sel, item.selectedOption = some sel →
              (sel.index = opt.index →
                item'.selectedOption = some { opt with text := txt }) ∧
              (sel.index ≠ opt.index →
                item'.selectedOption = item.selectedOption)) ∧
            (item.selectedOption = none → item'.selectedOption = none) ∧
            item'.id = item.id ∧ item'.originalImage = item.originalImage ∧
            item'.generatedImage = item.generatedImage ∧
            item'.status = item.status ∧ item'.error = item.error) := by
  constructor
  · simp [updateItemOptionText]
  · intro k item hk
    refine ⟨updateItemOptionTextItem id idx txt item, ?_, ?_⟩
    · rw [updateItemOptionText, List.get?_map, hk]
      rfl
    · exact ⟨(updateItemOptionTextItem_spec id idx txt item).1,
        (updateItemOptionTextItem_spec id idx txt item).2⟩

/-- A concrete option for the C10 witness. -/
def cexOption (i : Nat) (t : String) : CopywritingOption :=
  { index := i, tone := "tone", text := t, replacements := [] }

/-- A concrete work item for the C10 witness: two options, the second one
selected. -/
def cexItem : WorkItem :=
  { id := "A", originalImage := "img", generatedImage := none,
    status := .selecting, statusMessage := none, error := none,
    copywritingOptions := [cexOption 1 "old0", cexOption 2 "old1"],
    selectedOption := some (cexOption 2 "old1") }

/-- Witness for `updateItemOptionText_spec`: editing option 1 of item `A`
(whose `index` field 2 equals the selected option's) updates both the
option list and the selected option of item `A`, and leaves the other item
untouched. -/
theorem updateItemOptionText_spec_witness :
    ∃ item',
      (updateItemOptionText "A" 1 "new" [cexItem, { cexItem with id := "B" }]).get? 0 =
        some item' ∧
      item'.copywritingOptions =
        [cexOption 1 "old0", { cexOption 2 "old1" with text := "new" }] ∧
      item'.selectedOption = some { cexOption 2 "old1" with text := "new" } := by
  obtain ⟨item', hget, _, hmatch⟩ :=
    (updateItemOptionText_spec [cexItem, { cexItem with id := "B" }] "A" 1 "new").2
      0 cexItem rfl
  obtain ⟨hopts, hsel, -⟩ := hmatch rfl (cexOption 2 "old1") rfl
  refine ⟨item', hget, ?_, ?_⟩
  · rw [hopts]
    rfl
  · exact (hsel (cexOption 2 "old1") rfl).1 rfl

/-! ## Sequential batch processor — `handleBatchAnalyze` and
`handleServiceError` (Workspace component, lines 63–75 and 382–417)

The store slice the batch touches: the item list, the anti-duplication
caption memory, the logout flag (the store's `logout()` also clears the
items and the captions), the global error, and the local batch-processing
flag.  The remote operation `analyzeImageForCopywriting` is a mock
`op : String → List String → Except String (List CopywritingOption)` taking
the item's id and the usedCaptions read freshly from the store, as the
source does.  A run returns the final state together with the ordered list
of item ids for which the remote operation was invoked. -/

/-- The store state touched by the batch processor. -/
structure BatchState where
  items : List WorkItem
  usedCaptions : List String
  loggedOut : Bool
  globalError : Option String
  isBatchProcessing : Bool
deriving Repr

/-- The store's `logout()`: set the logged-out flag and reset the worked
state (items and used captions are cleared; auth fields are dropped). -/
def logoutState (st : BatchState) : BatchState :=
  { st with loggedOut := true, items := [], usedCaptions := [] }

/-- `handleServiceError` of the Workspace component: an `[AUTH_ERROR]`
message forces a global logout; otherwise the item (when given) is put in
the error state with the message, or the global error is set. -/
def handleServiceError (e : String) (itemId : Option String)
    (st : BatchState) : BatchState :=
  if strIncludes e "[AUTH_ERROR]" then logoutState st
  else
    match itemId with
    | some id =>
      { st with items :=
          (updateItem id (fun it => { it with status := .error, error := some e })
            st.items) }
    | none => { st with globalError := some e }

/-- The sequential `for (const item of targets)` loop of
`handleBatchAnalyze`, over the captured target list. -/
def batchAnalyzeLoop
    (op : String → List String → Except String (List CopywritingOption)) :
    List WorkItem → BatchState → BatchState × List String
  | [], st => (st, [])
  | item :: rest, st =>
    match op item.id st.usedCaptions with
    | .ok options =>
      let newTexts := options.map (·.text)
      let st' : BatchState :=
        { st with usedCaptions := st.usedCaptions ++ newTexts }
      let st'' : BatchState :=
        { st' with items := setItemOptions item.id options st'.items }
      let st''' : BatchState :=
        { st'' with items :=
            (updateItem item.id (fun it => { it with status := .selecting })
              st''.items) }
      let (stFin, tr) := batchAnalyzeLoop op rest st'''
      (stFin, item.id :: tr)
    | .error e =>
      let st' := handleServiceError e (some item.id) st
      let (stFin, tr) := batchAnalyzeLoop op rest st'
      (stFin, item.id :: tr)

/-- `handleBatchAnalyze` of the Workspace component: select the targets
(idle or error items), optimistically mark them all analyzing, check the
session, then process them sequentially.  Returns the final state and the
ids for which the remote operation was invoked, in order. -/
def handleBatchAnalyze
    (op : String → List String → Except String (List CopywritingOption))
    (sessionValid : Bool) (st : BatchState) : BatchState × List String :=
  let targets := st.items.filter fun i =>
    i.status = .idle ∨ i.status = .error
  if targets.length = 0 then (st, [])
  else
    let targetIds := targets.map (·.id)
    let st1 : BatchState :=
      { st with
          isBatchProcessing := true,
          items := (updateMultipleItems targetIds
            (fun it => { it with status := .analyzing, error := none })
            st.items) }
    if ¬ sessionValid then ({ st1 with isBatchProcessing := false }, [])
    else
      let (st2, tr) := batchAnalyzeLoop op targets st1
      ({ st2 with isBatchProcessing := false }, tr)

/-- A fresh idle `WorkItem` as created by the store's `addItem`. -/
def mkIdleItem (id img : String) : WorkItem :=
  { id := id, originalImage := img, generatedImage := none, status := .idle,
    statusMessage := none, error := none, copywritingOptions := [],
    selectedOption := none }

/-- The initial batch store state over the given items. -/
def mkBatchState (items : List WorkItem) : BatchState :=
  { items := items, usedCaptions := [], loggedOut := false,
    globalError := none, isBatchProcessing := false }

/-! ### Claims C3 and C4 -/

/-- Concrete mock analyze operation failing with an authorization error on
every item. -/
def cexOpAuth : String → List String → Except String (List CopywritingOption) :=
  fun _ _ => .error "[AUTH_ERROR] key invalid"

/-- Concrete mock analyze operation succeeding for every item except item
`2`, which fails with a non-authorization server error. -/
def cexOpMix : String → List String → Except String (List CopywritingOption) :=
  fun id _ =>
    if id = "2" then .error "500 overload"
    else .ok [{ index := 1, tone := "T", text := "cap1", replacements := [] }]

/-- C3 (counterexample): in a 2-item batch where item 1's operation fails
with an authorization error, the global logout is forced — but the batch
does not halt: the remote operation is also invoked for item 2, after the
failing item, contradicting the claim that no remote operation is invoked
for any item after the failing one. -/
theorem handleBatchAnalyze_auth_halt_cex :
    (handleBatchAnalyze cexOpAuth true
        (mkBatchState [mkIdleItem "1" "a", mkIdleItem "2" "b"])).1.loggedOut
        = true ∧
    (handleBatchAnalyze cexOpAuth true
        (mkBatchState [mkIdleItem "1" "a", mkIdleItem "2" "b"])).2 = ["1", "2"] ∧
    "2" ∈ (handleBatchAnalyze cexOpAuth true
        (mkBatchState [mkIdleItem "1" "a", mkIdleItem "2" "b"])).2 := by
  refine ⟨rfl, rfl, ?_⟩
  have h : (handleBatchAnalyze cexOpAuth true
      (mkBatchState [mkIdleItem "1" "a", mkIdleItem "2" "b"])).2 = ["1", "2"] := rfl
  rw [h]
  decide

/-- An `[AUTH_ERROR]` message makes `handleServiceError` set the
logged-out flag. -/
theorem handleServiceError_auth_loggedOut (e : String) (i : Option String)
    (st : BatchState) (h : strIncludes e "[AUTH_ERROR]" = true) :
    (handleServiceError e i st).loggedOut = true := by
  simp [handleServiceError, h, logoutState]

/-- `handleServiceError` never clears the logged-out flag. -/
theorem handleServiceError_loggedOut_mono (e : String) (i : Option String)
    (st : BatchState) (h : st.loggedOut = true) :
    (handleServiceError e i st).loggedOut = true := by
  by_cases ha : strIncludes e "[AUTH_ERROR]" = true <;>
    rcases i with _ | id <;>
      simp [handleServiceError, logoutState, ha, h]

/-- The batch loop invokes the remote operation for every target in list
order, whatever the per-item outcomes: no outcome halts it early. -/
theorem batchAnalyzeLoop_trace
    (op : String → List String → Except String (List CopywritingOption)) :
    ∀ (targets : List WorkItem) (st : BatchState),
      (batchAnalyzeLoop op targets st).2 = targets.map (·.id) := by
  intro targets
  induction targets with
  | nil => intro st; rfl
  | cons item rest ih =>
    intro st
    cases hcall : op item.id st.usedCaptions with
    | ok options =>
      simp only [batchAnalyzeLoop, hcall]
      simp [ih]
    | error e =>
      simp only [batchAnalyzeLoop, hcall]
      simp [ih]

/-- The batch loop never clears the logged-out flag. -/
theorem batchAnalyzeLoop_loggedOut_mono
    (op : String → List String → Except String (List CopywritingOption)) :
    ∀ (targets : List WorkItem) (st : BatchState), st.loggedOut = true →
      (batchAnalyzeLoop op targets st).1.loggedOut = true := by
  intro targets
  induction targets with
  | nil => intro st h; exact h
  | cons item rest ih =>
    intro st h
    cases hcall : op item.id st.usedCaptions with
    | ok options =>
      simp only [batchAnalyzeLoop, hcall]
      exact ih _ h
    | error e =>
      simp only [batchAnalyzeLoop, hcall]
      exact ih _ (handleServiceError_loggedOut_mono e (some item.id) st h)

/-- If some target's remote operation always fails with an
authorization-classified error, the batch loop ends logged out. -/
theorem batchAnalyzeLoop_auth_logout
    (op : String → List String → Except String (List CopywritingOption))
    (e failId : String)
    (hop : ∀ used, op failId used = .error e)
    (hauth : strIncludes e "[AUTH_ERROR]" = true) :
    ∀ (targets : List WorkItem) (st : BatchState),
      (∃ it ∈ targets, it.id = failId) →
      (batchAnalyzeLoop op targets st).1.loggedOut = true := by
  intro targets
  induction targets with
  | nil => intro st h; rcases h with ⟨it, hmem, _⟩; cases hmem
  | cons item rest ih =>
    intro st hex
    by_cases hid : item.id = failId
    · have hcall : op item.id st.usedCaptions = .error e := by
        rw [hid]; exact hop _
      simp only [batchAnalyzeLoop, hcall]
      exact batchAnalyzeLoop_loggedOut_mono op rest _
        (handleServiceError_auth_loggedOut e (some item.id) st hauth)
    · have hex' : ∃ it ∈ rest, it.id = failId := by
        rcases hex with ⟨it, hmem, hit⟩
        rcases List.mem_cons.mp hmem with hhd | htl
        · exact absurd (hhd ▸ hit) hid
        · exact ⟨it, htl, hit⟩
      cases hcall : op item.id st.usedCaptions with
      | ok options =>
        simp only [batchAnalyzeLoop, hcall]
        exact ih _ hex'
      | error e2 =>
        simp only [batchAnalyzeLoop, hcall]
        exact ih _ hex'

/-- C3 (amended): in any sequential batch in which the remote operation
for some target item fails with an error classified as an authorization
failure, a global logout is forced — but the batch does not halt: the
invocation trace is exactly the ids of all targets in order, so the remote
operation is still invoked for every item after the failing one. -/
theorem handleBatchAnalyze_auth_logout_no_halt
    (op : String → List String → Except String (List CopywritingOption))
    (st : BatchState) (e failId : String)
    (hop : ∀ used, op failId used = .error e)
    (hauth : strIncludes e "[AUTH_ERROR]" = true)
    (hmem : ∃ it ∈ st.items.filter (fun i => i.status = .idle ∨ i.status = .error),
      it.id = failId) :
    (handleBatchAnalyze op true st).1.loggedOut = true ∧
    (handleBatchAnalyze op true st).2 =
      (st.items.filter fun i => i.status = .idle ∨ i.status = .error).map (·.id) ∧
    ∀ it ∈ st.items.filter (fun i => i.status = .idle ∨ i.status = .error),
      it.id ∈ (handleBatchAnalyze op true st).2 := by
  have hne : (st.items.filter fun i => i.status = .idle ∨ i.status = .error) ≠ [] := by
    rcases hmem with ⟨it, hm, _⟩
    exact List.ne_nil_of_mem hm
  have htr : (handleBatchAnalyze op true st).2 =
      (st.items.filter fun i => i.status = .idle ∨ i.status = .error).map (·.id) := by
    unfold handleBatchAnalyze
    rw [if_neg (by simpa [List.length_eq_zero] using hne)]
    simp [batchAnalyzeLoop_trace]
  refine ⟨?_, htr, ?_⟩
  · unfold handleBatchAnalyze
    rw [if_neg (by simpa [List.length_eq_zero] using hne)]
    simp only [not_true, if_false, Bool.not_eq_true, Bool.true_eq_false,
      reduceIte]
    exact batchAnalyzeLoop_auth_logout op e failId hop hauth _ _ hmem
  · intro it hit
    rw [htr]
    exact List.mem_map_of_mem _ hit

/-- Witness for `handleBatchAnalyze_auth_logout_no_halt` at the concrete
always-auth-failing operation on a 2-item batch. -/
theorem handleBatchAnalyze_auth_logout_no_halt_witness :
    (handleBatchAnalyze cexOpAuth true
        (mkBatchState [mkIdleItem "1" "a", mkIdleItem "2" "b"])).1.loggedOut
        = true ∧
    (handleBatchAnalyze cexOpAuth true
        (mkBatchState [mkIdleItem "1" "a", mkIdleItem "2" "b"])).2
        = ["1", "2"] := by
  have h := handleBatchAnalyze_auth_logout_no_halt cexOpAuth
    (mkBatchState [mkIdleItem "1" "a", mkIdleItem "2" "b"])
    "[AUTH_ERROR] key invalid" "1" (fun _ => rfl) (by decide)
    ⟨mkIdleItem "1" "a", by decide, rfl⟩
  exact ⟨h.1, h.2.1.trans (by decide)⟩

/-- C4: in a 3-item batch where the remote operation succeeds for items 1
and 3 and fails for item 2 with a non-authorization error, every item is
attempted (the invocation trace is exactly the three ids in order), items
1 and 3 finish in the stage's terminal success state (`selecting`, with
their option lists set), and item 2 finishes in the error state with its
error field set to the failure message. -/
theorem handleBatchAnalyze_item2_error_isolated
    (op : String → List String → Except String (List CopywritingOption))
    (e : String) (optsA optsC : List CopywritingOption)
    (iA iB iC : String)
    (h1 : ∀ used, op "1" used = .ok optsA)
    (h2 : ∀ used, op "2" used = .error e)
    (h3 : ∀ used, op "3" used = .ok optsC)
    (hna : strIncludes e "[AUTH_ERROR]" = false) :
    (handleBatchAnalyze op true
        (mkBatchState
          [mkIdleItem "1" iA, mkIdleItem "2" iB, mkIdleItem "3" iC])).2
      = ["1", "2", "3"] ∧
    ((handleBatchAnalyze op true
        (mkBatchState
          [mkIdleItem "1" iA, mkIdleItem "2" iB, mkIdleItem "3" iC])).1.items.map
      fun i => i.status) = [.selecting, .error, .selecting] ∧
    ((handleBatchAnalyze op true
        (mkBatchState
          [mkIdleItem "1" iA, mkIdleItem "2" iB, mkIdleItem "3" iC])).1.items.map
      fun i => i.error) = [none, some e, none] := by
  refine ⟨?_, ?_, ?_⟩ <;>
    simp [handleBatchAnalyze, mkBatchState, mkIdleItem, batchAnalyzeLoop,
      handleServiceError, logoutState, updateItem, updateMultipleItems,
      setItemOptions, h1, h2, h3, hna]

/-- Witness for `handleBatchAnalyze_item2_error_isolated` at the concrete
mixed operation. -/
theorem handleBatchAnalyze_item2_error_isolated_witness :
    (handleBatchAnalyze cexOpMix true
        (mkBatchState
          [mkIdleItem "1" "a", mkIdleItem "2" "b", mkIdleItem "3" "c"])).2
      = ["1", "2", "3"] ∧
    ((handleBatchAnalyze cexOpMix true
        (mkBatchState
          [mkIdleItem "1" "a", mkIdleItem "2" "b", mkIdleItem "3" "c"])).1.items.map
      fun i => i.status) = [.selecting, .error, .selecting] :=
  have h := handleBatchAnalyze_item2_error_isolated cexOpMix "500 overload"
    [{ index := 1, tone := "T", text := "cap1", replacements := [] }]
    [{ index := 1, tone := "T", text := "cap1", replacements := [] }]
    "a" "b" "c" (fun _ => rfl) (fun _ => rfl) (fun _ => rfl) (by decide)
  ⟨h.1, h.2.1⟩

end DetailPageMaker
